import Mathlib

/-!
Shallow embedding of `src/time-perf.js` (class `TimePerf`).

Conventions of the embedding:
* JS wall-clock reads (`Date.now()`) are passed in explicitly as a `now : Int`
  argument to every method that reads the clock.
* Console output (`console.log` / `console.error`) is modelled as a
  `List String` of emitted messages returned alongside the new state
  (the "message sink").
* JS in-place object mutation is modelled by value: a method that mutates an
  aliased object (a pending child, a registry entry) is embedded as the
  corresponding functional update of the owning structure.
* Numbers are `Int` (all stored numbers in the source are integer millisecond
  values or indices) except the report percentages, which are exact rationals.
* A JS function that can throw is embedded with `Except`; a JS function that
  can return `undefined` is embedded with `Option`.
-/

/-- One recorded checkpoint (source `Step` typedef plus the `children` field
pushed in `step`, line 175). `σ` is the session type (knot tied below). -/
structure StepT (σ : Type) where
  time : Int
  name : String
  children : List σ
  deriving Repr

/-- `this.result` is either a number or an array of percentages
(`print`, lines 211 and 257). -/
inductive JSRes where
  | num (n : Int)
  | arr (ps : List ℚ)
  deriving DecidableEq, Repr

/-- The mutable fields of a `TimePerf` object (class field initializers,
lines 39-46, plus `depth`/`name` set in the constructor, lines 48-52). -/
structure SessionFields (σ : Type) where
  steps : List (StepT σ)
  pauseStep : Int
  pauseTime : Int
  result : JSRes
  strResult : String
  children : List σ
  name : String
  depth : Nat
  instances : List (String × σ)

/-- The `TimePerf` object: a session whose steps own child sessions. -/
inductive Session where
  | mk (f : SessionFields Session) : Session

abbrev Step := StepT Session

/-- Field accessor for the session object. -/
def Session.f : Session → SessionFields Session
  | .mk f => f

/-- `this.tag` (line 45), identical for every instance. -/
def tag : String := "[TimePerf] "

/-- `new TimePerf(depth)` (field initializers lines 39-46 and constructor
lines 48-52; `depth ? depth : 0` is the identity on the `Nat` argument). -/
def mkSession (depth : Nat) : Session :=
  .mk { steps := [], pauseStep := 0, pauseTime := 0, result := .num 0,
        strResult := "TimePerf created", children := [],
        name := "TimePerf session " ++ toString depth,
        depth := depth, instances := [] }

/-- Default value used with `List.getD` when indexing step arrays whose bounds
are already known. -/
def dStep : Step := ⟨0, "", []⟩

/-- JS truthiness of an optional string argument (`undefined` and `""` are
falsy). -/
def jsTruthyStr : Option String → Bool
  | none => false
  | some s => s != ""

/-- JS rendering of an optional string inside a template/concatenation
(`undefined` prints as "undefined"). -/
def jsStr : Option String → String
  | none => "undefined"
  | some s => s

/-- `reset` (lines 272-279): clears steps and pause accounting.  Note that the
pending `children` buffer, `name`, `depth` and `instances` are not touched. -/
def Session.reset (s : Session) : Session :=
  .mk { s.f with steps := [], pauseStep := 0, pauseTime := 0,
                 result := .num 0, strResult := "TimePerf reset" }

/-- `step` (lines 166-180).  `now` is the value of `Date.now()`.  Returns the
new state and the console messages emitted. -/
def Session.step (s : Session) (name : Option String) (now : Int) :
    Session × List String :=
  if s.f.pauseStep != 0 then
    (.mk { s.f with result := .num 0 },
     ["/!\\ " ++ tag ++ s.f.name ++
      " can\x27t mark a step during a pause or when it\x27s stopped (" ++
      jsStr name ++ " step has been ignored)"])
  else
    -- `if (!name) name = "Step " + this.steps.length + 1` : string
    -- concatenation is left-associative in JS, so the literal "1" is appended
    -- to the decimal rendering of the current step count.
    let nm := if jsTruthyStr name then name.getD "" else
      "Step " ++ toString s.f.steps.length ++ "1"
    let steps' := s.f.steps ++ [⟨now - s.f.pauseTime, nm, s.f.children⟩]
    (.mk { s.f with
           steps := steps',
           children := [],
           result := .num ((steps'.length : Int) - 1),
           strResult := "[TimePerf] > " ++ toString ((steps'.length : Int) - 1)
             ++ ". " ++ nm }, [])

/-- `start` (lines 136-144): optionally renames, then `reset().step()`. -/
def Session.start (s : Session) (name : Option String) (now : Int) :
    Session × List String :=
  let s₀ := if jsTruthyStr name then Session.mk { s.f with name := name.getD "" } else s
  let r := s₀.reset.step none now
  (.mk { r.1.f with
         result := .num 0,
         strResult := tag ++ r.1.f.name ++ " started" }, r.2)

/-- `pause` (lines 290-293): unconditionally records the clock into
`pauseStep` and changes nothing else. -/
def Session.pause (s : Session) (now : Int) : Session :=
  .mk { s.f with pauseStep := now }

/-- `stop` (lines 153-158): `step(name ? name : this.name).pause()` followed
by resetting `result`/`strResult`. -/
def Session.stop (s : Session) (name : Option String) (now : Int) :
    Session × List String :=
  let r := s.step (some (if jsTruthyStr name then name.getD "" else s.f.name)) now
  let s₁ := r.1.pause now
  (.mk { s₁.f with
         result := .num 0,
         strResult := tag ++ s₁.f.name ++ " stopped" }, r.2)

/-- `unpause` (lines 303-315).  On the not-paused path nothing is written to
the console: the warning text is only stored in `strResult`. -/
def Session.unpause (s : Session) (now : Int) : Session × List String :=
  if s.f.pauseStep != 0 then
    let res := now - s.f.pauseStep
    (.mk { s.f with
           pauseTime := s.f.pauseTime + res,
           strResult := tag ++ s.f.name ++ " has marked a " ++ toString res
             ++ " ms pause",
           pauseStep := 0, result := .num res }, [])
  else
    (.mk { s.f with
           strResult := "/!\\ " ++ tag ++ s.f.name ++
             " has not been paused before to unpause.",
           pauseStep := 0, result := .num 0 }, [])

/-- `log` (lines 321-325): emits `strResult` when it is a truthy string. -/
def Session.log (s : Session) : Session × List String :=
  (s, if s.f.strResult = "" then [] else [s.f.strResult])

/-- `child` (lines 331-339).  The middle component is the JS return value:
`none` models the fall-through `undefined` return of the empty-steps path. -/
def Session.child (s : Session) : Session × Option Session × List String :=
  if s.f.steps.length > 0 then
    let c := mkSession (s.f.depth + 1)
    (.mk { s.f with children := s.f.children ++ [c] }, some c, [])
  else
    (s, none,
     ["TimePerf hasn\x27t been started. Child can\x27t be created without available parent"])

/-- `childStart` (lines 346-348): `this.child().start(name)`.  When `child`
returns `undefined`, invoking `start` on it raises a `TypeError`; this is the
only public operation that can throw.  On success the started child object is
the pending child stored in `children` (JS aliasing), so the last buffer entry
is the started child. -/
def Session.childStart (s : Session) (name : Option String) (now : Int) :
    Except String (Session × Session × List String) :=
  let r := s.child
  match r.2.1 with
  | some c =>
    let rc := c.start name now
    .ok (.mk { r.1.f with children := r.1.f.children.dropLast ++ [rc.1] },
         rc.1, r.2.2 ++ rc.2)
  | none => .error "TypeError: this.child(...) is undefined"

/-- `childStop` (lines 355-363): stops the last pending child (the stopped
child object is the one stored in the buffer, JS aliasing). -/
def Session.childStop (s : Session) (name : Option String) (now : Int) :
    Session × List String :=
  if s.f.children.length > 0 then
    let c := s.f.children.getLastD (mkSession 0)
    let r := c.stop name now
    (.mk { s.f with children := s.f.children.dropLast ++ [r.1] }, r.2)
  else
    (s, [tag ++ "No child has been started yet"])

/-- `lastChild` (lines 369-375).  First component is the JS return value
(the last pending child, or the session itself as fallback); the session
state is not modified. -/
def Session.lastChild (s : Session) : Session × List String :=
  if s.f.children.length > 0 then
    (s.f.children.getLastD (mkSession 0), [])
  else
    (s, [tag ++ "No child has been started yet"])

/-- `getTime` (lines 382-388): duration of step `index`, or a logged
out-of-range message and no value. -/
def Session.getTime (s : Session) (index : Int) : Option Int × List String :=
  if 0 < index ∧ index < (s.f.steps.length : Int) then
    (some ((s.f.steps.getD index.toNat dStep).time -
           (s.f.steps.getD (index.toNat - 1) dStep).time), [])
  else
    (none, [toString index ++ " index does not exist"])

/-- Association-list lookup for the instance registry (`this.instances`). -/
def lookupInst : List (String × Session) → String → Option Session
  | [], _ => none
  | (k, v) :: r, n => if k = n then some v else lookupInst r n

/-- Replace the registry entry for `n` (models in-place mutation of the
aliased object stored under `n`). -/
def updateInst (l : List (String × Session)) (n : String) (v : Session) :
    List (String × Session) :=
  l.map (fun p => if p.1 = n then (n, v) else p)

/-- `newInstance` (lines 78-83): get-or-create.  Second component is the
returned instance. -/
def Session.newInstance (s : Session) (key : String) : Session × Session :=
  match lookupInst s.f.instances key with
  | some inst => (s, inst)
  | none =>
    let inst := mkSession 0
    (.mk { s.f with instances := s.f.instances ++ [(key, inst)] }, inst)

/-- `getInstance` (lines 85-87): forwards its arguments to `newInstance`. -/
def Session.getInstance (s : Session) (key : String) : Session × Session :=
  s.newInstance key

/-- `cleanInstances` (lines 57-59). -/
def Session.cleanInstances (s : Session) : Session :=
  .mk { s.f with instances := [] }

/-- `startInstance` (lines 101-111): unpause the instance if paused,
otherwise start it under its key name. -/
def Session.startInstance (s : Session) (key : String) (now : Int) :
    Session × Session × List String :=
  let r := s.newInstance key
  if r.2.f.pauseStep != 0 then
    let ru := r.2.unpause now
    (.mk { r.1.f with instances := updateInst r.1.f.instances key ru.1 },
     ru.1, ru.2)
  else
    let rs := r.2.start (some key) now
    (.mk { r.1.f with instances := updateInst r.1.f.instances key rs.1 },
     rs.1, rs.2)

/-- The argument shapes of `print`/`resume` (`print(index?, silent?)`,
lines 204-262): no arguments, one index, one boolean, or index plus silent
flag. -/
inductive PrintArg where
  | noArgs
  | idx (i : Int)
  | boolArg (b : Bool)
  | idxSilent (i : Int) (silent : Bool)
  deriving DecidableEq

/-- The `index` parameter as received by `print`.  A single boolean argument
is falsy-or-handled before any numeric use, so it contributes no index. -/
def argIndex : PrintArg → Option Int
  | .idx i => some i
  | .idxSilent i _ => some i
  | _ => none

/-- Truthiness of the `silent` parameter as received by `print`
(`undefined` when fewer than two arguments are passed). -/
def argSilent : PrintArg → Bool
  | .idxSilent _ b => b
  | _ => false

/-- `arguments.length == 1 && arguments[0] === true` (line 217). -/
def argSingleTrue : PrintArg → Bool
  | .boolArg true => true
  | _ => false

/-- JS truthiness of the normalized index (`undefined`/`null`/`false` and `0`
are falsy). -/
def jsTruthyIdx : Option Int → Bool
  | none => false
  | some n => n != 0

/-- The indentation string: `depth` tab characters (lines 213-216). -/
def tabs (d : Nat) : String := String.mk (List.replicate d '\t')

/-- Render a natural below 100 on two digits. -/
def pad2 (n : Nat) : String := if n < 10 then "0" ++ toString n else toString n

/-- `percentage.toFixed(2)` (line 251): two-decimal rendering, rounding half
away from zero; idealizes the JS double-to-decimal conversion on the exact
rational value. -/
def toFixed2 (q : ℚ) : String :=
  let m : Nat := (Int.floor (|q| * 100 + 1/2)).toNat
  (if q < 0 then "-" else "") ++ toString (m / 100) ++ "." ++ pad2 (m % 100)

/-- The fixed front matter of the full report (lines 234-242): optional
root banner, session name line, total duration line, pause duration line. -/
def reportHead (s : Session) (indent : String) (td : Int) : String :=
  (if s.f.depth = 0 then
    "\u250c\u2500\u2500\u2500\u2500\u2500\u2500\u2500\u2500\u2500\u2500\u2500\u2500\u2500\u2500\u2500\u2500\u2500\u2500\u2500\u2500\u2500\u2500\u2500\u2500\u2500\u2500\u2500\u2500\u2500\u2510\n" ++
    "\u2502       TimePerf result       \u2502\n" ++
    "\u251c\u2500\u2500\u2500\u2500\u2500\u2500\u2500\u2500\u2500\u2500\u2500\u2500\u2500\u2500\u2500\u2500\u2500\u2500\u2500\u2500\u2500\u2500\u2500\u2500\u2500\u2500\u2500\u2500\u2500\u2518\n"
   else "") ++
  "\u2502" ++ indent ++ " \u00ab " ++ s.f.name ++ " \u00bb\n" ++
  "\u2502" ++ indent ++ "\u2590 TimePerf duration : " ++ toString td ++ " ms\n" ++
  "\u2502" ++ indent ++ "\u2590 Pause duration    : " ++ toString s.f.pauseTime ++ " ms\n"

theorem sizeOf_steps_lt (s : Session) : sizeOf s.f.steps < sizeOf s := by
  cases s with
  | mk f =>
    cases f with
    | mk steps a b c d e g h i => simp [Session.f]; omega

theorem sizeOf_children_lt (st : Step) : sizeOf st.children < sizeOf st := by
  cases st with
  | mk t n c => simp

mutual

/-- `print` (lines 204-262).  Returns the new state and the emitted console
messages.  Notes kept from the source:
* in the fewer-than-2-steps branch (lines 205-211) the template variable
  `indent` is only declared (with `var`) further down, so it is hoisted and
  still `undefined`, and the template literal renders the text "undefined";
* the single-result branch guard is `index && index > 0 && index < 2`
  (line 227);
* the full report recursively prints every child of every step after the
  first, silently, splicing the child's `strResult` (lines 253-255); the
  children are mutated in place by those recursive calls, which the embedding
  renders by storing the updated children back into the steps. -/
def Session.print (s : Session) (arg : PrintArg) : Session × List String :=
  if s.f.steps.length < 2 then
    let msg := "undefined" ++
        "\n/!\\ TimePerf did not find enough steps too display a result" ++
      (if s.f.steps.length = 1
       then "undefined" ++ "\n\t> TimePerf is started but never stepped/stopped\n"
       else "undefined" ++ "\n\t> TimePerf has not been started\n")
    let s' := Session.mk { s.f with strResult := msg, result := .arr [] }
    (s', if argSilent arg then [] else
         if s'.f.strResult = "" then [] else [s'.f.strResult])
  else
    let indent := tabs s.f.depth
    let index₁ := if argSingleTrue arg then (none : Option Int) else argIndex arg
    let silent := if argSingleTrue arg then true else argSilent arg
    -- lines 221-226: fall back to `this.result` when it is a positive number,
    -- else (for nested sessions) to the last step index
    let index₂ : Option Int :=
      if jsTruthyIdx index₁ = false then
        match s.f.result with
        | .num n =>
          if n > 0 then some n
          else if s.f.depth > 0 then some ((s.f.steps.length : Int) - 1) else index₁
        | .arr _ =>
          if s.f.depth > 0 then some ((s.f.steps.length : Int) - 1) else index₁
      else index₁
    match (match index₂ with
           | some i => if 0 < i ∧ i < 2 then some i else none
           | none => none) with
    | some i =>
      -- single-result branch, lines 227-229
      let r := (s.f.steps.getD i.toNat dStep).time -
               (s.f.steps.getD (i.toNat - 1) dStep).time
      let s' := Session.mk { s.f with
        result := .num r,
        strResult := indent ++ "> " ++ (s.f.steps.getD i.toNat dStep).name ++
          "\t: " ++ toString r ++ " ms\n" }
      (s', if silent then [] else
           if s'.f.strResult = "" then [] else [s'.f.strResult])
    | none =>
      -- full report, lines 231-258
      let nbSteps := s.f.steps.length - 1
      let testDuration := (s.f.steps.getD nbSteps dStep).time -
                          (s.f.steps.getD 0 dStep).time
      let pre := reportHead s indent testDuration
      let t := goStepsAll indent testDuration s.f.steps
      let s' := Session.mk { s.f with
        steps := t.1,
        result := .arr t.2.1,
        strResult := pre ++ t.2.2 }
      (s', if silent then [] else
           if s'.f.strResult = "" then [] else [s'.f.strResult])
termination_by sizeOf s
decreasing_by
  simp_wf
  exact sizeOf_steps_lt s

/-- Entry into the full-report loop: the first step is kept as is (the loop
of lines 245-256 runs from index 1), the remaining steps are processed by
`goSteps` with the first step's time as previous time. -/
def goStepsAll (indent : String) (td : Int) :
    List Step → List Step × List ℚ × String
  | [] => ([], [], "")
  | st0 :: rest =>
    let r := goSteps indent td 1 st0.time rest
    (st0 :: r.1, r.2.1, r.2.2)
termination_by l => sizeOf l
decreasing_by
  simp_wf

/-- The loop of the full report (lines 245-256): walks the steps after the
first, carrying the previous step time, the 1-based display index, the
percentage list and the accumulated text, and rebuilding each step with its
recursively printed children. -/
def goSteps (indent : String) (td : Int) (i : Nat) (prev : Int) :
    List Step → List Step × List ℚ × String
  | [] => ([], [], "")
  | st :: rest =>
    let iDuration := st.time - prev
    let percentage : ℚ := ((100 * iDuration : Int) : ℚ) / (td : ℚ)
    let c := goChildren st.children
    let line := "│" ++ indent ++ " ■ " ++ toString i ++ ". " ++ st.name ++
      "\t: " ++ toFixed2 percentage ++ " %\t (" ++ toString iDuration ++ " ms)\n"
    let r := goSteps indent td (i + 1) st.time rest
    (⟨st.time, st.name, c.1⟩ :: r.1, percentage :: r.2.1, line ++ c.2 ++ r.2.2)
termination_by l => sizeOf l
decreasing_by
  all_goals simp_wf
  all_goals first
    | omega
    | (have hlt := sizeOf_children_lt st0; omega)

/-- The inner loop over one step's children (lines 253-255):
`step.children[j].print(true).strResult`. -/
def goChildren : List Session → List Session × String
  | [] => ([], "")
  | c :: cs =>
    let r := c.print (.boolArg true)
    let rest := goChildren cs
    (r.1 :: rest.1, r.1.f.strResult ++ rest.2)
termination_by l => sizeOf l
decreasing_by
  all_goals simp_wf
  all_goals omega

end

/-- `resume` (lines 264-266) forwards all its arguments to `print` but has no
`return` statement: same state effect and console effect, returns
`undefined`.  The third component is the JS return value. -/
def Session.resumev (s : Session) (arg : PrintArg) :
    Session × List String × Option Session :=
  let r := s.print arg
  (r.1, r.2, none)

/-- `print` with its JS return value made explicit: `print` returns `this`
(line 261), i.e. the updated session. -/
def Session.printv (s : Session) (arg : PrintArg) :
    Session × List String × Option Session :=
  let r := s.print arg
  (r.1, r.2, some r.1)

/-- `stopInstance` (lines 120-129): stop+print+deregister when the end
condition holds, otherwise pause the instance (the stopped/printed/paused
object is the aliased registry entry). -/
def Session.stopInstance (s : Session) (key : String) (endCondition : Bool)
    (now : Int) : Session × Session × List String :=
  let r := s.newInstance key
  if endCondition then
    let r₁ := r.2.stop none now
    let r₂ := r₁.1.print .noArgs
    (.mk { r.1.f with instances := r.1.f.instances.filter (fun p => p.1 != key) },
     r₂.1, r₁.2 ++ r₂.2)
  else
    let inst := r.2.pause now
    (.mk { r.1.f with instances := updateInst r.1.f.instances key inst },
     inst, [])

/-- The public surface of the module: every operation a caller can invoke on
a session, with the argument shapes of the spec (names and print arguments as
modelled above, integer indices). -/
inductive Op where
  | opReset
  | opStart (name : Option String)
  | opStep (name : Option String)
  | opStop (name : Option String)
  | opPause
  | opUnpause
  | opPrint (arg : PrintArg)
  | opResume (arg : PrintArg)
  | opLog
  | opChild
  | opChildStart (name : Option String)
  | opChildStop (name : Option String)
  | opLastChild
  | opGetTime (i : Int)
  | opNewInstance (key : String)
  | opGetInstance (key : String)
  | opStartInstance (key : String)
  | opStopInstance (key : String) (endCondition : Bool)
  | opCleanInstances
  deriving DecidableEq

/-- One call of a public operation: new state and emitted console messages on
normal return, `Except.error` where the JS code would raise.  The only raise
point in the source is `childStart`, which invokes `start` on the value of
`child()`; every other operation returns normally on every state. -/
def run (op : Op) (s : Session) (now : Int) :
    Except String (Session × List String) :=
  match op with
  | .opReset => .ok (s.reset, [])
  | .opStart n => .ok (s.start n now)
  | .opStep n => .ok (s.step n now)
  | .opStop n => .ok (s.stop n now)
  | .opPause => .ok (s.pause now, [])
  | .opUnpause => .ok (s.unpause now)
  | .opPrint a => .ok (s.print a)
  | .opResume a => .ok ((s.resumev a).1, (s.resumev a).2.1)
  | .opLog => .ok (s.log)
  | .opChild => .ok ((s.child).1, (s.child).2.2)
  | .opChildStart n => (s.childStart n now).map (fun r => (r.1, r.2.2))
  | .opChildStop n => .ok (s.childStop n now)
  | .opLastChild => .ok (s, (s.lastChild).2)
  | .opGetTime i => .ok (s, (s.getTime i).2)
  | .opNewInstance k => .ok ((s.newInstance k).1, [])
  | .opGetInstance k => .ok ((s.getInstance k).1, [])
  | .opStartInstance k => .ok ((s.startInstance k now).1, (s.startInstance k now).2.2)
  | .opStopInstance k e => .ok ((s.stopInstance k e now).1, (s.stopInstance k e now).2.2)
  | .opCleanInstances => .ok (s.cleanInstances, [])

theorem Session.f_mk (f : SessionFields Session) : (Session.mk f).f = f := rfl

/-- The per-interval percentages of the full report: for each step after the
first, `100 * (step.time - previous.time) / td` in exact rational
arithmetic. -/
def intervalPercs (td prev : Int) : List Step → List ℚ
  | [] => []
  | st :: rest =>
    ((100 * (st.time - prev) : Int) : ℚ) / (td : ℚ) :: intervalPercs td st.time rest

theorem goSteps_percs (indent : String) (td : Int) :
    ∀ (l : List Step) (i : Nat) (prev : Int),
      (goSteps indent td i prev l).2.1 = intervalPercs td prev l := by
  intro l
  induction l with
  | nil => intro i prev; rw [goSteps.eq_def]; rfl
  | cons st rest ih =>
    intro i prev
    rw [goSteps.eq_def]
    simp only [intervalPercs]
    rw [ih]

theorem goStepsAll_percs (indent : String) (td : Int) (st0 : Step)
    (rest : List Step) :
    (goStepsAll indent td (st0 :: rest)).2.1 = intervalPercs td st0.time rest := by
  rw [goStepsAll.eq_def]
  simp only
  rw [goSteps_percs]

theorem getLastD_time_default_irrel (l : List Step) (a b : Step)
    (h : a.time = b.time) : (l.getLastD a).time = (l.getLastD b).time := by
  cases h' : l.getLast? with
  | none => simp [List.getLastD_eq_getLast?, h', h]
  | some y => simp [List.getLastD_eq_getLast?, h']

theorem intervalPercs_sum (td : Int) :
    ∀ (l : List Step) (prev : Int),
      (intervalPercs td prev l).sum =
        ((100 * ((l.getLastD ⟨prev, "", []⟩).time - prev) : Int) : ℚ) / (td : ℚ) := by
  intro l
  induction l with
  | nil => intro prev; simp [intervalPercs]
  | cons st rest ih =>
    intro prev
    simp only [intervalPercs, List.sum_cons, List.getLastD_cons]
    rw [ih st.time]
    rw [getLastD_time_default_irrel rest ⟨st.time, "", []⟩ st rfl]
    rw [div_add_div_same]
    congr 1
    push_cast
    ring

/-- A freshly started root session: one recorded step (time 0). -/
def sOne : Session := ((mkSession 0).start none 0).1

/-- A started root session with a second step "b" recorded at time 5. -/
def sTwo : Session := (sOne.step (some "b") 5).1

/-- A started root session, paused at time 3. -/
def sPaused : Session := sOne.pause 3

/-- C10: for every session state, `pause()` writes the clock time into
`pauseStep` unconditionally (also when the session is already paused,
overwriting the earlier pause start) and modifies nothing else: steps,
accumulated pause time, result, report text, pending children, name, depth
and the instance registry are unchanged. -/
theorem pause_writes_only_pauseStep (s : Session) (now : Int) :
    (s.pause now).f.pauseStep = now ∧
    (s.pause now).f.steps = s.f.steps ∧
    (s.pause now).f.pauseTime = s.f.pauseTime ∧
    (s.pause now).f.result = s.f.result ∧
    (s.pause now).f.strResult = s.f.strResult ∧
    (s.pause now).f.children = s.f.children ∧
    (s.pause now).f.name = s.f.name ∧
    (s.pause now).f.depth = s.f.depth ∧
    (s.pause now).f.instances = s.f.instances :=
  ⟨rfl, rfl, rfl, rfl, rfl, rfl, rfl, rfl, rfl⟩

/-- C8: on a paused session, `step(name)` appends no step, leaves the
accumulated pause time (and every other field except `result`) unchanged,
emits the warning to the console, sets `result` to the failure marker 0 and
returns the session, so the chain continues. -/
theorem step_while_paused_is_soft_noop (s : Session) (name : Option String)
    (now : Int) (h : s.f.pauseStep ≠ 0) :
    s.step name now =
      (.mk { s.f with result := .num 0 },
       ["/!\\ " ++ tag ++ s.f.name ++
        " can\x27t mark a step during a pause or when it\x27s stopped (" ++
        jsStr name ++ " step has been ignored)"]) := by
  rw [Session.step]
  simp [h]

/-- Witness for C8 at a concrete paused session. -/
theorem step_while_paused_witness :
    sPaused.f.pauseStep ≠ 0 ∧
    sPaused.step (some "Y") 9 =
      (.mk { sPaused.f with result := .num 0 },
       ["/!\\ " ++ tag ++ sPaused.f.name ++
        " can\x27t mark a step during a pause or when it\x27s stopped (" ++
        jsStr (some "Y") ++ " step has been ignored)"]) :=
  ⟨by decide, step_while_paused_is_soft_noop sPaused (some "Y") 9 (by decide)⟩

/-- C4 (code evaluation): on a non-paused session holding `k` recorded
steps, `step()` with no name labels the new step
`"Step " ++ toString k ++ "1"` — the source expression
`"Step " + this.steps.length + 1` concatenates the literal `1` instead of
adding it, so for `k = 0` the label is "Step 01", not "Step 1". -/
theorem step_default_name_appends_one (s : Session) (now : Int)
    (h : s.f.pauseStep = 0) :
    (s.step none now).1.f.steps.map (fun st => st.name) =
      s.f.steps.map (fun st => st.name) ++
        ["Step " ++ toString s.f.steps.length ++ "1"] := by
  rw [Session.step]
  simp [h, jsTruthyStr, Session.f_mk]

/-- Witness for C4 at a fresh session: the first default label is
"Step 01". -/
theorem step_default_name_witness :
    (mkSession 0).f.pauseStep = 0 ∧
    ((mkSession 0).step none 7).1.f.steps.map (fun st => st.name) =
      ["Step 01"] :=
  ⟨rfl, by
    have h := step_default_name_appends_one (mkSession 0) 7 rfl
    simpa using h⟩

/-- C9 counterexample: `unpause()` on a session that is not paused emits
nothing to the message sink (the warning only goes into `strResult`),
refuting "emits a warning to the message sink". -/
theorem unpause_not_paused_emits_nothing :
    (mkSession 0).f.pauseStep = 0 ∧ ((mkSession 0).unpause 5).2 = [] :=
  ⟨rfl, rfl⟩

/-- C9 (amended): on a session that is not paused, `unpause()` stores the
warning text in `strResult` (to be emitted only by a later `log()`), sets the
result to 0, and leaves every other field — steps, accumulated pause time,
children, name, depth, registry — unchanged; nothing is emitted. -/
theorem unpause_not_paused_sets_warning_text_only (s : Session) (now : Int)
    (h : s.f.pauseStep = 0) :
    s.unpause now =
      (.mk { s.f with
             strResult := "/!\\ " ++ tag ++ s.f.name ++
               " has not been paused before to unpause.",
             pauseStep := 0, result := .num 0 }, []) := by
  rw [Session.unpause]
  simp [h]

/-- Witness for the amended C9 at a fresh session. -/
theorem unpause_not_paused_witness :
    (mkSession 0).f.pauseStep = 0 ∧
    (mkSession 0).unpause 5 =
      (.mk { (mkSession 0).f with
             strResult := "/!\\ " ++ tag ++ (mkSession 0).f.name ++
               " has not been paused before to unpause.",
             pauseStep := 0, result := .num 0 }, []) :=
  ⟨rfl, unpause_not_paused_sets_warning_text_only (mkSession 0) 5 rfl⟩

/-- C5 counterexample: `resume()` and `print()` do not return the same
value — `resume` has no return statement, so it returns `undefined`, while
`print` returns the session. -/
theorem resume_return_value_differs_from_print :
    ((mkSession 0).resumev PrintArg.noArgs).2.2 = none ∧
    ((mkSession 0).printv PrintArg.noArgs).2.2.isSome = true :=
  ⟨rfl, rfl⟩

/-- C5 (amended): `resume(...)` forwards its arguments to `print(...)` and
has exactly the same effect on the session state and on the message sink,
but returns `undefined` where `print` returns the session itself. -/
theorem resume_effects_equal_print_but_returns_undefined (s : Session)
    (arg : PrintArg) :
    (s.resumev arg).1 = (s.printv arg).1 ∧
    (s.resumev arg).2.1 = (s.printv arg).2.1 ∧
    (s.resumev arg).2.2 = none ∧
    (s.printv arg).2.2 = some (s.print arg).1 :=
  ⟨rfl, rfl, rfl, rfl⟩

/-- C7: a child created via `child()` after the step of rank K (the last
recorded step) and before the next `step()` call lands in the children list
of the next recorded step; the previously recorded steps — including step K
and its children — are left untouched (the appended-to prefix of the step
list is unchanged), and the pending-children buffer is flushed into the new
step and then cleared. -/
theorem child_attaches_to_next_step (s : Session) (name : Option String)
    (now : Int) (hsteps : 0 < s.f.steps.length) (hpause : s.f.pauseStep = 0) :
    (s.child).2.1 = some (mkSession (s.f.depth + 1)) ∧
    ((s.child).1.step name now).1.f.steps =
      s.f.steps ++
        [⟨now - s.f.pauseTime,
          (if jsTruthyStr name then name.getD "" else
            "Step " ++ toString s.f.steps.length ++ "1"),
          s.f.children ++ [mkSession (s.f.depth + 1)]⟩] ∧
    ((s.child).1.step name now).1.f.children = [] := by
  have hchild : s.child =
      (.mk { s.f with children := s.f.children ++ [mkSession (s.f.depth + 1)] },
       some (mkSession (s.f.depth + 1)), []) := by
    rw [Session.child]
    simp [hsteps]
  refine ⟨by rw [hchild], ?_, ?_⟩
  all_goals rw [hchild]
  all_goals rw [Session.step]
  all_goals simp [Session.f_mk, hpause]

/-- Witness for C7: on a one-step session the child created before the
second step appears in that second step's children list, and the first step
is unchanged. -/
theorem child_attaches_witness :
    (0 < sOne.f.steps.length ∧ sOne.f.pauseStep = 0) ∧
    (sOne.child).2.1 = some (mkSession (sOne.f.depth + 1)) ∧
    ((sOne.child).1.step (some "S1") 9).1.f.steps =
      sOne.f.steps ++
        [⟨9 - sOne.f.pauseTime,
          (if jsTruthyStr (some "S1") then (some "S1").getD "" else
            "Step " ++ toString sOne.f.steps.length ++ "1"),
          sOne.f.children ++ [mkSession (sOne.f.depth + 1)]⟩] ∧
    ((sOne.child).1.step (some "S1") 9).1.f.children = [] :=
  ⟨⟨by decide, by decide⟩,
   child_attaches_to_next_step sOne (some "S1") 9 (by decide) (by decide)⟩

/-- State reached by: start; child; reset; start — the pending child created
before the reset leaks into the first step of the restarted session. -/
def resetStartA : Session :=
  ((((mkSession 0).start none 0).1.child).1.reset.start none 1).1

/-- State reached by: start on a freshly constructed session. -/
def freshStartB : Session := ((mkSession 0).start none 1).1

/-- C2 counterexample: `reset()` does not clear the pending-children buffer,
so a session that held a pending child at reset time records it on the first
step of the next `start()`, while a freshly constructed session records an
empty children list — the two sessions are not behaviorally identical. -/
theorem reset_start_differs_from_fresh_counterexample :
    (resetStartA.f.steps.getD 0 dStep).children.length = 1 ∧
    (freshStartB.f.steps.getD 0 dStep).children.length = 0 :=
  ⟨rfl, rfl⟩

/-- C2 (amended): `reset()` empties the steps and clears the pause state
(`pauseStep = 0`, `pauseTime = 0`, `result = 0`); and a subsequent `start()`
coincides with `start()` on a freshly constructed session of the same depth
provided the pending-children buffer is empty, the name is the constructor
default, and the registry is empty (reset clears none of those three). -/
theorem reset_clears_and_start_matches_fresh (s : Session)
    (name : Option String) (now : Int)
    (hch : s.f.children = [])
    (hname : s.f.name = "TimePerf session " ++ toString s.f.depth)
    (hinst : s.f.instances = []) :
    (s.reset.f.steps = [] ∧ s.reset.f.pauseStep = 0 ∧
     s.reset.f.pauseTime = 0 ∧ s.reset.f.result = .num 0) ∧
    s.reset.start name now = (mkSession s.f.depth).start name now := by
  refine ⟨⟨rfl, rfl, rfl, rfl⟩, ?_⟩
  rw [Session.start, Session.start]
  simp only [Session.reset, Session.f_mk, mkSession]
  rcases Bool.eq_false_or_eq_true (jsTruthyStr name) with hn | hn <;>
    (rw [Session.step, Session.step]
     simp [Session.f_mk, hn, hch, hname, hinst])

/-- Witness for the amended C2 at a fresh session (which trivially has empty
buffer, default name, empty registry). -/
theorem reset_start_witness :
    ((mkSession 0).f.children = [] ∧
     (mkSession 0).f.name = "TimePerf session " ++ toString (mkSession 0).f.depth ∧
     (mkSession 0).f.instances = []) ∧
    ((mkSession 0).reset.f.steps = [] ∧ (mkSession 0).reset.f.pauseStep = 0 ∧
     (mkSession 0).reset.f.pauseTime = 0 ∧ (mkSession 0).reset.f.result = .num 0) ∧
    (mkSession 0).reset.start (some "n") 4 =
      (mkSession (mkSession 0).f.depth).start (some "n") 4 :=
  ⟨⟨rfl, rfl, rfl⟩,
   reset_clears_and_start_matches_fresh (mkSession 0) (some "n") 4 rfl rfl rfl⟩

/-- C1 counterexample: `childStart(name)` on a session with no recorded
steps faults — `child()` logs and returns `undefined`, and `start` is then
invoked on that `undefined` value, raising a TypeError instead of returning
a safe chainable value. -/
theorem childStart_throws_on_stepless_session :
    run (Op.opChildStart (some "x")) (mkSession 0) 0 =
      Except.error "TypeError: this.child(...) is undefined" := rfl

/-- C1 (amended): every public operation — reset, start, step, stop, pause,
unpause, print, resume (with the documented argument shapes), log, child,
childStop, lastChild, getTime and the registry operations — returns normally
on every session state; `childStart` also returns normally whenever at least
one step has been recorded.  The only faulting case is `childStart` on a
stepless session (previous theorem). -/
theorem run_never_throws_except_childStart_stepless (op : Op) (s : Session)
    (now : Int)
    (h : ∀ nm, op = Op.opChildStart nm → 0 < s.f.steps.length) :
    ∃ r, run op s now = Except.ok r := by
  cases op with
  | opChildStart nm =>
    have hs := h nm rfl
    simp only [run, Session.childStart]
    rw [Session.child]
    simp [hs]
    exact ⟨_, _, rfl⟩
  | opReset => exact ⟨_, rfl⟩
  | opStart n => exact ⟨_, rfl⟩
  | opStep n => exact ⟨_, rfl⟩
  | opStop n => exact ⟨_, rfl⟩
  | opPause => exact ⟨_, rfl⟩
  | opUnpause => exact ⟨_, rfl⟩
  | opPrint a => exact ⟨_, rfl⟩
  | opResume a => exact ⟨_, rfl⟩
  | opLog => exact ⟨_, rfl⟩
  | opChild => exact ⟨_, rfl⟩
  | opChildStop n => exact ⟨_, rfl⟩
  | opLastChild => exact ⟨_, rfl⟩
  | opGetTime i => exact ⟨_, rfl⟩
  | opNewInstance k => exact ⟨_, rfl⟩
  | opGetInstance k => exact ⟨_, rfl⟩
  | opStartInstance k => exact ⟨_, rfl⟩
  | opStopInstance k e => exact ⟨_, rfl⟩
  | opCleanInstances => exact ⟨_, rfl⟩

/-- Witness for the amended C1: `childStart` on a session holding one step
returns normally. -/
theorem run_never_throws_witness :
    (∀ nm, Op.opChildStart (some "c") = Op.opChildStart nm →
      0 < sOne.f.steps.length) ∧
    ∃ r, run (Op.opChildStart (some "c")) sOne 7 = Except.ok r :=
  ⟨fun _ _ => by decide,
   run_never_throws_except_childStart_stepless (Op.opChildStart (some "c"))
     sOne 7 (fun _ _ => by decide)⟩

/-- Shared reduction lemma: with at least 2 steps and an explicit integer
index at least 2, `print(i, true)` takes the full-report branch. -/
theorem print_full_result (s : Session) (i : Int)
    (h2 : 2 ≤ s.f.steps.length) (hi : 2 ≤ i) :
    (s.print (.idxSilent i true)).1.f.result =
      .arr (intervalPercs
        ((s.f.steps.getD (s.f.steps.length - 1) dStep).time -
         (s.f.steps.getD 0 dStep).time)
        (s.f.steps.getD 0 dStep).time s.f.steps.tail) ∧
    (s.print (.idxSilent i true)).1.f.strResult =
      reportHead s (tabs s.f.depth)
        ((s.f.steps.getD (s.f.steps.length - 1) dStep).time -
         (s.f.steps.getD 0 dStep).time) ++
      (goStepsAll (tabs s.f.depth)
        ((s.f.steps.getD (s.f.steps.length - 1) dStep).time -
         (s.f.steps.getD 0 dStep).time) s.f.steps).2.2 := by
  have hlen : ¬ (s.f.steps.length < 2) := by omega
  have hne : ¬ (0 < i ∧ i < 2) := by omega
  have hne0 : i ≠ 0 := by omega
  rw [Session.print.eq_def]
  simp only [hlen, if_false, argSingleTrue, argIndex, argSilent, jsTruthyIdx]
  norm_num [hne0, hne]
  obtain ⟨st0, rest, hrest⟩ : ∃ st0 rest, s.f.steps = st0 :: rest := by
    cases hsteps : s.f.steps with
    | nil => rw [hsteps] at h2; simp at h2
    | cons a l => exact ⟨a, l, rfl⟩
  rw [hrest]
  rw [goStepsAll_percs]
  simp only [List.getElem?_cons_zero, Option.getD_some, List.tail_cons]
  exact ⟨rfl, rfl⟩


/-- C3: on any session with at least 2 recorded steps, `print(1, true)`
takes the single-result branch — `result` becomes
`steps[1].time - steps[0].time` and `strResult` the single duration line —
while for every requested integer index `i >= 2`, `print(i, true)` takes the
full-report branch: `result` becomes the list of per-interval percentages
and `strResult` the multi-line report, never a single duration. -/
theorem print_single_branch_iff_index_one (s : Session) (i : Int)
    (h2 : 2 ≤ s.f.steps.length) :
    ((s.print (.idxSilent 1 true)).1.f.result =
        .num ((s.f.steps.getD 1 dStep).time - (s.f.steps.getD 0 dStep).time) ∧
     (s.print (.idxSilent 1 true)).1.f.strResult =
        tabs s.f.depth ++ "> " ++ (s.f.steps.getD 1 dStep).name ++ "\t: " ++
          toString ((s.f.steps.getD 1 dStep).time - (s.f.steps.getD 0 dStep).time)
          ++ " ms\n") ∧
    (2 ≤ i →
      (s.print (.idxSilent i true)).1.f.result =
        .arr (intervalPercs
          ((s.f.steps.getD (s.f.steps.length - 1) dStep).time -
           (s.f.steps.getD 0 dStep).time)
          (s.f.steps.getD 0 dStep).time s.f.steps.tail) ∧
      (s.print (.idxSilent i true)).1.f.strResult =
        reportHead s (tabs s.f.depth)
          ((s.f.steps.getD (s.f.steps.length - 1) dStep).time -
           (s.f.steps.getD 0 dStep).time) ++
        (goStepsAll (tabs s.f.depth)
          ((s.f.steps.getD (s.f.steps.length - 1) dStep).time -
           (s.f.steps.getD 0 dStep).time) s.f.steps).2.2) := by
  have hlen : ¬ (s.f.steps.length < 2) := by omega
  constructor
  · rw [Session.print.eq_def]
    simp only [hlen, if_false, argSingleTrue, argIndex, argSilent, jsTruthyIdx]
    norm_num
    exact ⟨rfl, rfl⟩
  · exact fun hi => print_full_result s i h2 hi

/-- Witness for C3 at a two-step session (times 0 and 5): `print(1, true)`
yields the single duration 5, `print(2, true)` yields the percentage list
[100]. -/
theorem print_single_branch_witness :
    2 ≤ sTwo.f.steps.length ∧
    (sTwo.print (.idxSilent 1 true)).1.f.result = .num 5 ∧
    (sTwo.print (.idxSilent 2 true)).1.f.result = .arr [100] := by
  refine ⟨by decide, ?_, ?_⟩
  · rw [(print_single_branch_iff_index_one sTwo 2 (by decide)).1.1]
    decide
  · rw [((print_single_branch_iff_index_one sTwo 2 (by decide)).2 (by norm_num)).1]
    rw [show sTwo.f.steps = [⟨0, "Step 01", []⟩, ⟨5, "b", []⟩] from rfl]
    norm_num [intervalPercs, dStep]

theorem getD_cons_length (st0 : Step) (rest : List Step) (d : Step) :
    (st0 :: rest).getD rest.length d = rest.getLastD st0 := by
  induction rest generalizing st0 with
  | nil => rfl
  | cons x xs ih =>
    rw [List.length_cons, List.getD_cons_succ, ih x]
    simp [List.getLastD_eq_getLast?, List.getLast?_cons]

theorem intervalPercs_length (td : Int) :
    ∀ (l : List Step) (prev : Int), (intervalPercs td prev l).length = l.length := by
  intro l
  induction l with
  | nil => intro prev; rfl
  | cons st rest ih => intro prev; simp [intervalPercs, ih st.time]

/-- C6 (amended): for every session holding N+1 recorded steps (N >= 1)
whose total duration `steps[N].time - steps[0].time` is nonzero, the
full-report path of `print` computes the N per-interval percentages
`100 * interval / total`, and in exact rational arithmetic they sum to
exactly 100.  (With a zero total duration the claim fails; see the
counterexample.) -/
theorem percentage_sum_is_100_of_nonzero_duration (s : Session) (st0 : Step)
    (rest : List Step) (h : s.f.steps = st0 :: rest) (hne : rest ≠ [])
    (hd : (rest.getLastD st0).time ≠ st0.time) :
    (s.print (.idxSilent 2 true)).1.f.result =
      .arr (intervalPercs ((rest.getLastD st0).time - st0.time) st0.time rest) ∧
    (intervalPercs ((rest.getLastD st0).time - st0.time) st0.time rest).length
      = rest.length ∧
    (intervalPercs ((rest.getLastD st0).time - st0.time) st0.time rest).sum
      = 100 := by
  have h2 : 2 ≤ s.f.steps.length := by
    rw [h]
    have := List.length_pos.mpr hne
    simp
    omega
  refine ⟨?_, intervalPercs_length _ rest st0.time, ?_⟩
  · have hfull := (print_full_result s 2 h2 (by norm_num)).1
    rw [hfull, h]
    rw [show (st0 :: rest).length - 1 = rest.length from by simp]
    rw [getD_cons_length]
    simp only [List.getD_cons_zero, List.tail_cons]
  · rw [intervalPercs_sum]
    rw [getLastD_time_default_irrel rest ⟨st0.time, "", []⟩ st0 rfl]
    have hcast : (((rest.getLastD st0).time - st0.time : Int) : ℚ) ≠ 0 := by
      exact_mod_cast sub_ne_zero.mpr hd
    push_cast at hcast ⊢
    rw [mul_div_assoc, div_self hcast]
    norm_num

/-- A session with two steps recorded at the same clock time (5): zero total
duration, no pauses. -/
def sZero : Session := (((mkSession 0).start none 5).1.step (some "b") 5).1

/-- C6 counterexample: with two steps recorded at the same millisecond (no
pauses), the total duration is 0 and the percentage list of the full report
is [0] (the source divides by zero: exact rational convention 0, NaN in JS),
whose sum is not 100 — so the claim fails without a nonzero-duration
hypothesis. -/
theorem percentage_sum_zero_duration_counterexample :
    sZero.f.pauseTime = 0 ∧
    sZero.f.steps.length = 2 ∧
    (sZero.print (.idxSilent 2 true)).1.f.result = .arr [0] ∧
    ([0] : List ℚ).sum ≠ 100 := by
  refine ⟨rfl, rfl, ?_, by norm_num⟩
  rw [(print_full_result sZero 2 (by decide) (by norm_num)).1]
  rw [show sZero.f.steps = [⟨5, "Step 01", []⟩, ⟨5, "b", []⟩] from rfl]
  norm_num [intervalPercs, dStep]

/-- Witness for the amended C6 at a two-step session with total duration
5: the percentage list sums to exactly 100. -/
theorem percentage_sum_witness :
    (sTwo.f.steps = (⟨0, "Step 01", []⟩ : Step) :: [(⟨5, "b", []⟩ : Step)] ∧
     [(⟨5, "b", []⟩ : Step)] ≠ ([] : List Step) ∧
     (([(⟨5, "b", []⟩ : Step)]).getLastD (⟨0, "Step 01", []⟩ : Step)).time ≠
       (⟨0, "Step 01", []⟩ : Step).time) ∧
    (sTwo.print (.idxSilent 2 true)).1.f.result =
      .arr (intervalPercs
        ((([(⟨5, "b", []⟩ : Step)]).getLastD (⟨0, "Step 01", []⟩ : Step)).time -
          (⟨0, "Step 01", []⟩ : Step).time)
        (⟨0, "Step 01", []⟩ : Step).time [(⟨5, "b", []⟩ : Step)]) ∧
    (intervalPercs
        ((([(⟨5, "b", []⟩ : Step)]).getLastD (⟨0, "Step 01", []⟩ : Step)).time -
          (⟨0, "Step 01", []⟩ : Step).time)
        (⟨0, "Step 01", []⟩ : Step).time [(⟨5, "b", []⟩ : Step)]).length =
      [(⟨5, "b", []⟩ : Step)].length ∧
    (intervalPercs
        ((([(⟨5, "b", []⟩ : Step)]).getLastD (⟨0, "Step 01", []⟩ : Step)).time -
          (⟨0, "Step 01", []⟩ : Step).time)
        (⟨0, "Step 01", []⟩ : Step).time [(⟨5, "b", []⟩ : Step)]).sum = 100 := by
  refine ⟨⟨rfl, by simp, by decide⟩, ?_⟩
  exact percentage_sum_is_100_of_nonzero_duration sTwo _ _ rfl (by simp) (by decide)
